import Mathlib

/-!
A shallow embedding of the hstorage library (a schema-validated, path-addressable
value store) and proofs about its claims.

Modelling conventions:
* JavaScript runtime values are modelled by the inductive `JSValue`: `null`,
  `undefined`, booleans, numbers, strings, arrays and plain objects.  Objects are
  insertion-ordered association lists without duplicate keys (JS objects cannot
  hold duplicate keys); the engine-level reordering of integer-like keys is not
  modelled (the claims are key-set level or use non-numeric keys).
* JS numbers are modelled by the rationals `ℚ` (IEEE-754 rounding is immaterial
  to every claim; `-Infinity` and `Infinity` bounds of `Number`/`String` options
  are modelled by `none`).  Regular expressions are modelled by their
  denotation, an `Option (String → Bool)` predicate, `none` for the `null`
  default.
* `throw` in the source is modelled by `Except.error` with the thrown message.
* Object identity (needed only by the cycle detection of `_clone`) is modelled
  separately by an explicit heap, see `Heap` and `clone` below.
-/

set_option maxHeartbeats 1600000

namespace HStorage

/-- JavaScript values, as trees (see the heap model further down for the one
function whose behaviour depends on object identity). -/
inductive JSValue where
  | null
  | undefined
  | bool (b : Bool)
  | num (q : ℚ)
  | str (s : String)
  | arr (elems : List JSValue)
  | obj (fields : List (String × JSValue))

/-- First binding of a key in an association list, as JS property lookup on
objects without duplicate keys. -/
def lookupKey {α : Type} : List (String × α) → String → Option α
  | [], _ => none
  | (k', v) :: rest, k => if k' = k then some v else lookupKey rest k

/-- Does `typeof v === 'object'` hold?  True for `null`, arrays and objects. -/
def typeofObject : JSValue → Bool
  | .null => true
  | .arr _ => true
  | .obj _ => true
  | _ => false

/-- Is `v` a truthy value of object type (`v && typeof v === 'object'`)?
True exactly for arrays and plain objects. -/
def objLike : JSValue → Bool
  | .arr _ => true
  | .obj _ => true
  | _ => false

/-- The canonical array index denoted by a property key, if any:
`"0"`, `"1"`, ... (rejects non-canonical spellings such as `"00"`). -/
def toIndex? (k : String) : Option ℕ :=
  match k.toNat? with
  | some i => if toString i = k then some i else none
  | none => none

/-- Property read `v[k]`, `undefined` when absent (JS semantics on objects and
arrays; reads on primitives yield `undefined`, and the code under study always
guards reads with an object check). -/
def jsGet : JSValue → String → JSValue
  | .obj fields, k => (lookupKey fields k).getD .undefined
  | .arr elems, k =>
    match toIndex? k with
    | some i => (elems.get? i).getD .undefined
    | none => .undefined
  | _, _ => .undefined

/-- `Object.keys v`: field names of an object in insertion order, index strings
of an array.  (Primitives have no own enumerable keys.) -/
def jsKeys : JSValue → List String
  | .obj fields => fields.map Prod.fst
  | .arr elems => (List.range elems.length).map toString
  | _ => []

/-- Property write `v[k] = x` on an object or array, returning the updated
value.  On objects an existing binding is overwritten in place, a new key is
appended (JS insertion order).  On arrays an in-range index is overwritten and
the index equal to the length appends; other writes on arrays (expando
properties) are outside the model and leave the array unchanged. -/
def setKey : JSValue → String → JSValue → JSValue
  | .obj fields, k, x =>
    if (lookupKey fields k).isSome then
      .obj (fields.map (fun kv => if kv.1 = k then (kv.1, x) else kv))
    else
      .obj (fields ++ [(k, x)])
  | .arr elems, k, x =>
    match toIndex? k with
    | some i =>
      if i < elems.length then .arr (elems.set i x)
      else .arr (elems ++ List.replicate (i - elems.length) .undefined ++ [x])
    | none => .arr elems
  | v, _, _ => v

/-- Property deletion `delete v[k]`.  Deleting an array index leaves a hole,
which reads back as `undefined`; the model stores the hole as `undefined`. -/
def delKey : JSValue → String → JSValue
  | .obj fields, k => .obj (fields.filter (fun kv => kv.1 ≠ k))
  | .arr elems, k =>
    match toIndex? k with
    | some i => .arr (elems.set i .undefined)
    | none => .arr elems
  | v, _ => v

/-- The `ValidatingResult` type of `types.ts`: success, or the list of failing
key paths. -/
inductive VResult where
  | valid
  | invalid (paths : List (List String))
deriving DecidableEq

/-- The `valid` field of a `ValidatingResult`. -/
def VResult.isValid : VResult → Bool
  | .valid => true
  | .invalid _ => false

/-- The reported failing paths: empty on success. -/
def VResult.failPaths : VResult → List (List String)
  | .valid => []
  | .invalid paths => paths

/-- Embedding of `_createValidatingResult(valid)` of `utils.ts` with the
`paths` argument omitted: a failure carries the single empty root path. -/
def createVR (b : Bool) : VResult :=
  if b then .valid else .invalid [[]]

/-- The Type tree of `types.ts`: the seven validator variants (plus `Any`),
each carrying its configuration after constructor-time merging with the
variant defaults.  `Dictionary` stores no default value: it is derived from
the field types by `_createDefaultDictionary` (see `typeDefault`). -/
inductive JSType where
  | any (defaultValue : JSValue)
  | boolean (defaultValue : Bool)
  | string (defaultValue : String) (minLength : ℕ) (maxLength : Option ℕ)
      (pattern : Option (String → Bool))
  | number (defaultValue : ℚ) (min max : Option ℚ) (integer : Bool)
  | nullable (defaultValue : JSValue) (nullFlag undefinedFlag : Bool)
  | dictionary (types : Option (List (String × JSType)))
  | list (defaultValue : List JSValue) (type : JSType)
  | union (defaultValue : JSValue) (types : List JSType)

/-- Check of `Boolean.validate`: `typeof value === 'boolean'`. -/
def booleanCheck : JSValue → Bool
  | .bool _ => true
  | _ => false

/-- Check of `String.validate`: a string within the length bounds matching the
pattern (if any). -/
def stringCheck (minLength : ℕ) (maxLength : Option ℕ) (pattern : Option (String → Bool)) :
    JSValue → Bool
  | .str s =>
    decide (minLength ≤ s.length) &&
    (match maxLength with | none => true | some m => decide (s.length ≤ m)) &&
    (match pattern with | none => true | some p => p s)
  | _ => false

/-- Check of `Number.validate`: a number within the bounds, an integer when
required (`value % 1 === 0` holds exactly when the rational has denominator
one). -/
def numberCheck (min max : Option ℚ) (integer : Bool) : JSValue → Bool
  | .num q =>
    (match min with | none => true | some m => decide (m ≤ q)) &&
    (match max with | none => true | some m => decide (q ≤ m)) &&
    (!integer || decide (q.den = 1))
  | _ => false

/-- Check of `Nullable.validate`, translated literally from
`value === null ? this.null : (value === this.undefinedined && this.undefinedined)`:
for a non-null value the comparison is against the boolean flag
`this.undefinedined` itself, so only the boolean equal to the flag can pass it. -/
def nullableCheck (nullFlag undefinedFlag : Bool) : JSValue → Bool
  | .null => nullFlag
  | .bool b => decide (b = undefinedFlag) && undefinedFlag
  | _ => false

/-- Unknown-key collection of `Dictionary.validate`: one single-key path per
key of the candidate that the field mapping does not declare. -/
def unknownKeyPaths (ts : List (String × JSType)) (v : JSValue) : List (List String) :=
  ((jsKeys v).filter (fun k => (lookupKey ts k).isNone)).map (fun k => [k])

mutual

/-- Embedding of `Type.validate` of `types.ts`, variant by variant.

* `Any.validate` always succeeds.
* `Boolean`, `String`, `Number` check the primitive and its bounds.
* `Nullable.validate` is translated literally from the source line
  `value === null ? this.null : (value === this.undefinedined && this.undefinedined)`:
  for a non-null value it compares the value against the boolean field
  `this.undefinedined` itself, not against the value `undefined`.
* `Dictionary.validate` rejects non-objects with the root path, accepts any
  object when no field mapping is declared, and otherwise collects unknown-key
  paths followed by the prefixed failing paths of every declared field.
* `List.validate` is translated literally: `value.every(e => type.validate(e))`
  tests the truthiness of the returned result object, which is always truthy
  (see `vResultTruthy` inlined below as `fun _ => true` composed over the
  element results via `validateElems`).
* `Union.validate` succeeds when some member type accepts the value. -/
def validate : JSType → JSValue → VResult
  | .any _, _ => .valid
  | .boolean _, v => createVR (booleanCheck v)
  | .string _ minLength maxLength pattern, v => createVR (stringCheck minLength maxLength pattern v)
  | .number _ min max integer, v => createVR (numberCheck min max integer v)
  | .nullable _ nullFlag undefinedFlag, v => createVR (nullableCheck nullFlag undefinedFlag v)
  | .dictionary none, v => if objLike v then .valid else .invalid [[]]
  | .dictionary (some ts), v =>
    if objLike v then
      let paths := unknownKeyPaths ts v ++ validateFields ts v
      if paths.isEmpty then .valid else .invalid paths
    else .invalid [[]]
  | .list _ t, v => createVR (validateListValue t v)
  | .union _ ts, v => createVR (validateAny ts v)

/-- Array dispatch of `List.validate`: `_Array.isArray(value)` and the element
loop. -/
def validateListValue : JSType → JSValue → Bool
  | t, .arr elems => validateElems t elems
  | _, _ => false

/-- The field loop `Object.entries(types).forEach`  of `Dictionary.validate`: failing
paths of each declared field, prefixed with the field key, in declaration
order. -/
def validateFields : List (String × JSType) → JSValue → List (List String)
  | [], _ => []
  | (k, t) :: rest, v =>
    (match validate t (jsGet v k) with
     | .valid => []
     | .invalid ps => ps.map (fun p => k :: p)) ++ validateFields rest v

/-- The element loop `value.every(element => type.validate(element))` of
`List.validate`.  The source tests the truthiness of the `ValidatingResult`
object, and both result shapes are objects, hence truthy: each conjunct is
literally `true` regardless of the element result. -/
def validateElems : JSType → List JSValue → Bool
  | _, [] => true
  | t, e :: es => (fun _ => true) (validate t e) && validateElems t es

/-- The member loop `this.types.some(option => option.validate(value).valid)` of
`Union.validate`. -/
def validateAny : List JSType → JSValue → Bool
  | [], _ => false
  | t :: ts, v => (validate t v).isValid || validateAny ts v

end

mutual

/-- The default value owned by a constructed Type: the stored one for the leaf
variants, and `_createDefaultDictionary` (each declared field mapped to its own
default) for `Dictionary`. -/
def typeDefault : JSType → JSValue
  | .any d => d
  | .boolean d => .bool d
  | .string d _ _ _ => .str d
  | .number d _ _ _ => .num d
  | .nullable d _ _ => d
  | .dictionary none => .obj []
  | .dictionary (some ts) => .obj (typeDefaultFields ts)
  | .list d _ => .arr d
  | .union d _ => d

/-- Embedding of `_createDefaultDictionary` of `utils.ts`. -/
def typeDefaultFields : List (String × JSType) → List (String × JSValue)
  | [] => []
  | (k, t) :: rest => (k, typeDefault t) :: typeDefaultFields rest

end

/-- Is the type node a `Dictionary` (of either kind)? -/
def isDict : JSType → Bool
  | .dictionary _ => true
  | _ => false

/-- Embedding of `getTypeByPath` of `types.ts`, with the `INVALID_PATH` throw
rendered as `none`: descend through `Dictionary` field mappings only. -/
def getTypeByPath? : JSType → List String → Option JSType
  | t, [] => some t
  | .dictionary (some ts), k :: ks =>
    (match lookupKey ts k with
     | some t => getTypeByPath? t ks
     | none => none)
  | _, _ :: _ => none

/-- Embedding of `_testTypePath` of `utils.ts`: does the key path resolve
through declared `Dictionary` fields? -/
def testTypePath : JSType → List String → Bool
  | _, [] => true
  | .dictionary (some ts), k :: ks =>
    (match lookupKey ts k with
     | some t => testTypePath t ks
     | none => false)
  | _, _ :: _ => false

/-- Embedding of the `Nullable` constructor: options merged over the defaults
`defaultValue: null, null: true, undefined: true`; `none` means the option key
is absent.  Both flags disabled throw `Invalid options`; an explicitly present
default value is validated (`_validateDefaultValue`); otherwise, when `null`
acceptance is off, the default is silently replaced by `undefined` without
validation. -/
def mkNullable (defaultValue? : Option JSValue) (null? undefined? : Option Bool) :
    Except String JSType :=
  let d := defaultValue?.getD .null
  let nf := null?.getD true
  let uf := undefined?.getD true
  if !(nf || uf) then .error "Invalid options"
  else if defaultValue?.isSome then
    if (validate (.nullable d nf uf) d).isValid then .ok (.nullable d nf uf)
    else .error "Invalid default value"
  else if !nf then .ok (.nullable .undefined nf uf)
  else .ok (.nullable d nf uf)

/-- Embedding of `_parsePath` for string selectors: split on the separator
(array selectors are already key paths and pass through unchanged). -/
def parsePath (selector : String) (sep : String) : List String :=
  selector.splitOn sep

/-- Embedding of `_getByPath` of `utils.ts`. -/
def getByPath : JSValue → List String → Except String JSValue
  | v, [] => .ok v
  | v, k :: ks =>
    if objLike v then getByPath (jsGet v k) ks else .error "Invalid path"

/-- Embedding of `_setByPath` of `utils.ts`, functionally: the in-place
mutation along the walked spine becomes reconstruction with `setKey`.  On the
empty path the `forEach` body never runs, so nothing is written. -/
def setByPath : JSValue → List String → JSValue → Except String JSValue
  | v, [], _ => .ok v
  | v, [k], x =>
    if objLike v then .ok (setKey v k x) else .error "Invalid path"
  | v, k :: k2 :: ks, x =>
    if objLike v then
      match setByPath (jsGet v k) (k2 :: ks) x with
      | .ok inner => .ok (setKey v k inner)
      | .error e => .error e
    else .error "Invalid path"

/-- Embedding of `_deleteByPath` of `utils.ts`, functionally. -/
def deleteByPath : JSValue → List String → Except String JSValue
  | v, [] => .ok v
  | v, [k] =>
    if objLike v then .ok (delKey v k) else .error "Invalid path"
  | v, k :: k2 :: ks =>
    if objLike v then
      match deleteByPath (jsGet v k) (k2 :: ks) with
      | .ok inner => .ok (setKey v k inner)
      | .error e => .error e
    else .error "Invalid path"

/-- Embedding of `_testPath` of `utils.ts`: cheap existence probe. -/
def testPath : JSValue → List String → Bool
  | _, [] => true
  | v, k :: ks =>
    if objLike v then testPath (jsGet v k) ks else false

mutual

/-- Tree-level rendering of `_clone` of `utils.ts` (used by the Store for its
default value).  Arrays are copied by `slice()`: shallow, and in tree semantics
the same element list.  For a non-array object every field is visited: a
`null` field value crashes the source with a TypeError (the recursive call
reaches `Object.entries(null)`), object-typed values recurse, function values
are skipped (`JSValue` holds no functions), primitives are copied.  The
identity-based cycle detection cannot fire on trees; the heap-level `clone`
below models it. -/
def treeClone : JSValue → Except String JSValue
  | .arr elems => .ok (.arr elems)
  | .obj fields => do
    let fs ← treeCloneFields fields
    .ok (.obj fs)
  | .null => .error "TypeError"
  | .undefined => .error "TypeError"
  | _ => .ok (.obj [])

/-- Field loop of the tree-level `_clone`. -/
def treeCloneFields : List (String × JSValue) → Except String (List (String × JSValue))
  | [] => .ok []
  | (k, v) :: rest =>
    if typeofObject v then
      match v with
      | .null => .error "TypeError"
      | _ => do
        let c ← treeClone v
        let r ← treeCloneFields rest
        .ok ((k, c) :: r)
    else do
      let r ← treeCloneFields rest
      .ok ((k, v) :: r)

end

/-- Lower-case hexadecimal digit. -/
def hexDigit (n : ℕ) : String :=
  String.singleton (if n < 10 then Char.ofNat (48 + n) else Char.ofNat (87 + n))

/-- JSON escaping of one character inside a quoted string. -/
def escapeChar (c : Char) : String :=
  if c = '"' then "\\\""
  else if c = '\\' then "\\\\"
  else if c = '\n' then "\\n"
  else if c = '\r' then "\\r"
  else if c = '\t' then "\\t"
  else if c = Char.ofNat 8 then "\\b"
  else if c = Char.ofNat 12 then "\\f"
  else if c.toNat < 32 then "\\u00" ++ hexDigit (c.toNat / 16) ++ hexDigit (c.toNat % 16)
  else String.singleton c

/-- JSON quoting of a string. -/
def quoteJSON (s : String) : String :=
  "\"" ++ s.data.foldl (fun acc c => acc ++ escapeChar c) "" ++ "\""

/-- Decimal digits of the fractional part of a rational in `[0, 1)`, stopping
when the remainder vanishes or after the fuel runs out.  (JS prints the
shortest decimal that round-trips through the IEEE double; for the terminating
decimals the claims exercise the two notions agree.) -/
def fracDigits : ℕ → ℚ → String
  | 0, _ => ""
  | fuel + 1, q =>
    if q = 0 then ""
    else
      let q10 := q * 10
      toString q10.floor ++ fracDigits fuel (q10 - (q10.floor : ℚ))

/-- Number-to-string conversion used by `JSON.stringify` (JS `ToString` on a
number): integers print without a decimal point. -/
def numToString (q : ℚ) : String :=
  if q.den = 1 then toString q.num
  else
    let sign := if q < 0 then "-" else ""
    let aq := |q|
    sign ++ toString aq.floor ++ "." ++ fracDigits 30 (aq - (aq.floor : ℚ))

mutual

/-- Embedding of `JSON.stringify` on a tree value.  At the top level
`JSON.stringify(undefined)` is the value `undefined`, which the storage medium
then coerces to the string `"undefined"` when written; this total model bakes
in that coercion.  Inside arrays `undefined` serializes as `null`, and object
fields holding `undefined` are dropped. -/
def stringify : JSValue → String
  | .null => "null"
  | .undefined => "undefined"
  | .bool true => "true"
  | .bool false => "false"
  | .num q => numToString q
  | .str s => quoteJSON s
  | .arr elems => "[" ++ stringifyElems elems ++ "]"
  | .obj fields => "\x7b" ++ stringifyFields fields ++ "\x7d"

/-- Comma-joined array elements for `stringify`; `undefined` elements print as
`null`. -/
def stringifyElems : List JSValue → String
  | [] => ""
  | [e] => (match e with | .undefined => "null" | _ => stringify e)
  | e :: rest =>
    (match e with | .undefined => "null" | _ => stringify e) ++ "," ++ stringifyElems rest

/-- Comma-joined object fields for `stringify`; fields holding `undefined` are
dropped. -/
def stringifyFields : List (String × JSValue) → String
  | [] => ""
  | (_, .undefined) :: rest => stringifyFields rest
  | (k, v) :: rest =>
    let item := quoteJSON k ++ ":" ++ stringify v
    let r := stringifyFields rest
    if r = "" then item else item ++ "," ++ r

end

/-- JSON whitespace skipping. -/
def skipWs : List Char → List Char
  | c :: rest =>
    if c = ' ' ∨ c = '\t' ∨ c = '\n' ∨ c = '\r' then skipWs rest else c :: rest
  | [] => []

/-- Value of a hexadecimal digit character. -/
def hexVal (c : Char) : Option ℕ :=
  if '0' ≤ c ∧ c ≤ '9' then some (c.toNat - 48)
  else if 'a' ≤ c ∧ c ≤ 'f' then some (c.toNat - 87)
  else if 'A' ≤ c ∧ c ≤ 'F' then some (c.toNat - 55)
  else none

/-- Body of a JSON string literal after the opening quote: returns the decoded
string and the input remaining after the closing quote. -/
def parseStringRest (acc : String) : List Char → Except String (String × List Char)
  | '"' :: rest => .ok (acc, rest)
  | '\\' :: 'u' :: a :: b :: c :: d :: rest =>
    (match hexVal a, hexVal b, hexVal c, hexVal d with
     | some ha, some hb, some hc, some hd =>
       parseStringRest (acc.push (Char.ofNat (((ha * 16 + hb) * 16 + hc) * 16 + hd))) rest
     | _, _, _, _ => .error "Bad Unicode escape in JSON")
  | '\\' :: e :: rest =>
    if e = '"' then parseStringRest (acc.push '"') rest
    else if e = '\\' then parseStringRest (acc.push '\\') rest
    else if e = '/' then parseStringRest (acc.push '/') rest
    else if e = 'b' then parseStringRest (acc.push (Char.ofNat 8)) rest
    else if e = 'f' then parseStringRest (acc.push (Char.ofNat 12)) rest
    else if e = 'n' then parseStringRest (acc.push '\n') rest
    else if e = 'r' then parseStringRest (acc.push '\r') rest
    else if e = 't' then parseStringRest (acc.push '\t') rest
    else .error "Bad escaped character in JSON"
  | c :: rest =>
    if c.toNat < 32 then .error "Bad control character in JSON"
    else parseStringRest (acc.push c) rest
  | [] => .error "Unterminated string in JSON"

/-- Longest leading run of decimal digits. -/
def spanDigits : List Char → List Char × List Char
  | c :: rest =>
    if '0' ≤ c ∧ c ≤ '9' then
      let (ds, r) := spanDigits rest
      (c :: ds, r)
    else ([], c :: rest)
  | [] => ([], [])

/-- Numeric value of a digit run. -/
def digitsVal (ds : List Char) : ℕ :=
  ds.foldl (fun acc c => acc * 10 + (c.toNat - 48)) 0

/-- JSON number grammar: optional minus, integer part without leading zeros,
optional fraction, optional exponent; the exact rational value (the IEEE
rounding of `JSON.parse` is immaterial to the claims). -/
def parseNumber (cs : List Char) : Except String (ℚ × List Char) := do
  let (neg, cs1) := match cs with | '-' :: r => (true, r) | _ => (false, cs)
  let (ds, cs2) := spanDigits cs1
  if ds.isEmpty then .error "Invalid number in JSON"
  else if ds.length > 1 ∧ ds.head? = some '0' then .error "Invalid number in JSON"
  else do
    let (fds, cs3) ←
      match cs2 with
      | '.' :: r =>
        (let (fds, r2) := spanDigits r
         if fds.isEmpty then Except.error "Invalid number in JSON"
         else Except.ok (fds, r2))
      | _ => Except.ok (([] : List Char), cs2)
    let (eneg, eds, cs4) ←
      match cs3 with
      | 'e' :: r | 'E' :: r =>
        (let (esign, r1) :=
          match r with
          | '+' :: r2 => (false, r2)
          | '-' :: r2 => (true, r2)
          | _ => (false, r)
         let (eds, r3) := spanDigits r1
         if eds.isEmpty then Except.error "Invalid number in JSON"
         else Except.ok (esign, eds, r3))
      | _ => Except.ok (false, ([] : List Char), cs3)
    let m : ℤ := (digitsVal (ds ++ fds) : ℤ)
    let m : ℤ := if neg then -m else m
    let e : ℕ := digitsVal eds
    let q : ℚ :=
      if eneg then mkRat m (10 ^ (fds.length + e))
      else mkRat (m * (10 : ℤ) ^ e) (10 ^ fds.length)
    .ok (q, cs4)

/-- Overwrite-or-append of one parsed object member: a duplicate key keeps its
first position and takes the last value, as in `JSON.parse`. -/
def insertField (fs : List (String × JSValue)) (kv : String × JSValue) :
    List (String × JSValue) :=
  if (lookupKey fs kv.1).isSome then
    fs.map (fun p => if p.1 = kv.1 then (p.1, kv.2) else p)
  else fs ++ [kv]

/-- Duplicate-key resolution over a parsed member list. -/
def dedupFields (fs : List (String × JSValue)) : List (String × JSValue) :=
  fs.foldl insertField []

mutual

/-- Embedding of `JSON.parse`: one JSON value, returning the remaining input.
The fuel argument only forces termination; `parse` supplies enough fuel for
any input (at least one input character is consumed between two fuel
decrements). -/
def parseValue : ℕ → List Char → Except String (JSValue × List Char)
  | 0, _ => .error "JSON nesting too deep"
  | fuel + 1, cs =>
    match skipWs cs with
    | 'n' :: 'u' :: 'l' :: 'l' :: rest => .ok (.null, rest)
    | 't' :: 'r' :: 'u' :: 'e' :: rest => .ok (.bool true, rest)
    | 'f' :: 'a' :: 'l' :: 's' :: 'e' :: rest => .ok (.bool false, rest)
    | '"' :: rest => do
      let (s, rest1) ← parseStringRest "" rest
      .ok (.str s, rest1)
    | '[' :: rest =>
      (match skipWs rest with
       | ']' :: rest1 => .ok (.arr [], rest1)
       | cs1 => do
         let (es, rest1) ← parseElems fuel cs1
         .ok (.arr es, rest1))
    | '\x7b' :: rest =>
      (match skipWs rest with
       | '\x7d' :: rest1 => .ok (.obj [], rest1)
       | cs1 => do
         let (fs, rest1) ← parseMembers fuel cs1
         .ok (.obj (dedupFields fs), rest1))
    | cs1 => do
      let (q, rest) ← parseNumber cs1
      .ok (.num q, rest)

/-- Comma-separated element list of a non-empty JSON array, up to and
including the closing bracket. -/
def parseElems : ℕ → List Char → Except String (List JSValue × List Char)
  | 0, _ => .error "JSON nesting too deep"
  | fuel + 1, cs => do
    let (v, rest) ← parseValue fuel cs
    match skipWs rest with
    | ',' :: rest1 => do
      let (vs, rest2) ← parseElems fuel rest1
      .ok (v :: vs, rest2)
    | ']' :: rest1 => .ok ([v], rest1)
    | _ => .error "Expected comma or closing bracket in JSON"

/-- Comma-separated member list of a non-empty JSON object, up to and
including the closing brace. -/
def parseMembers : ℕ → List Char → Except String (List (String × JSValue) × List Char)
  | 0, _ => .error "JSON nesting too deep"
  | fuel + 1, cs =>
    match skipWs cs with
    | '"' :: rest => do
      let (k, rest1) ← parseStringRest "" rest
      match skipWs rest1 with
      | ':' :: rest2 => do
        let (v, rest3) ← parseValue fuel rest2
        (match skipWs rest3 with
         | ',' :: rest4 => do
           let (fs, rest5) ← parseMembers fuel rest4
           .ok ((k, v) :: fs, rest5)
         | '\x7d' :: rest4 => .ok ([(k, v)], rest4)
         | _ => .error "Expected comma or closing brace in JSON")
      | _ => .error "Expected colon in JSON"
    | _ => .error "Expected string key in JSON"

end

/-- Embedding of `JSON.parse` on a whole source string: one value surrounded
by whitespace only. -/
def parse (s : String) : Except String JSValue := do
  let (v, rest) ← parseValue (s.length + 1) s.data
  match skipWs rest with
  | [] => .ok v
  | _ => .error "Unexpected non-whitespace character after JSON"

/-- Heap-level JS values for the identity-sensitive parts of `_clone`:
primitives, functions, and references to heap objects. -/
inductive HVal where
  | hnull
  | hundefined
  | hbool (b : Bool)
  | hnum (q : ℚ)
  | hstr (s : String)
  | hfn
  | href (a : ℕ)
deriving DecidableEq

/-- A heap object: an array of values or a plain object. -/
inductive HObj where
  | harr (elems : List HVal)
  | hobj (fields : List (String × HVal))
deriving DecidableEq

/-- A heap: objects indexed by their address. -/
abbrev Heap := List HObj

/-- A crude upper bound on the work `_clone` can perform on a heap, used to
provision fuel. -/
def heapWeight (h : Heap) : ℕ :=
  h.foldl
    (fun acc o =>
      acc + 1 + (match o with | .harr es => es.length | .hobj fs => fs.length))
    1

mutual

/-- Embedding of `_clone(source, refs)` of `utils.ts` on the heap model.
`refs` is the mutable `Set` of already visited object identities, threaded
through the whole traversal of one top-level call.  An array is copied by
`slice()`: a fresh array object with the same element values, no recursion, no
visit of the elements.  The fuel only forces termination and is provisioned
generously by `clone`. -/
def cloneStep : ℕ → Heap → List ℕ → ℕ → Except String (Heap × ℕ × List ℕ)
  | 0, _, _, _ => .error "clone fuel exhausted"
  | _fuel + 1, h, refs, a =>
    match h.get? a with
    | none => .error "dangling reference"
    | some (.harr es) => .ok (h ++ [.harr es], h.length, refs)
    | some (.hobj fields) => cloneFields _fuel h refs fields []

/-- Field loop of `_clone`: a `null` field value is of type `object`, escapes
the `value !== null` guard into the visited set and crashes the recursive call
at `Object.entries(null)` (a TypeError); a reference already in the visited
set throws `Circular reference`; a fresh reference is added to the set and
cloned recursively; functions are skipped; other primitives are copied. -/
def cloneFields : ℕ → Heap → List ℕ → List (String × HVal) → List (String × HVal) →
    Except String (Heap × ℕ × List ℕ)
  | 0, _, _, _, _ => .error "clone fuel exhausted"
  | _fuel + 1, h, refs, [], acc => .ok (h ++ [.hobj acc.reverse], h.length, refs)
  | _fuel + 1, h, refs, (k, v) :: rest, acc =>
    match v with
    | .href b =>
      if b ∈ refs then .error "Circular reference"
      else do
        let (h1, a1, refs1) ← cloneStep _fuel h (b :: refs) b
        cloneFields _fuel h1 refs1 rest ((k, .href a1) :: acc)
    | .hnull => .error "TypeError"
    | .hfn => cloneFields _fuel h refs rest acc
    | _ => cloneFields _fuel h refs rest ((k, v) :: acc)

end

/-- Embedding of a top-level `_clone(source)` call on heap `h` at address `a`:
the visited set starts empty and is local to this call. -/
def clone (h : Heap) (a : ℕ) : Except String (Heap × ℕ × List ℕ) :=
  cloneStep (2 * heapWeight h + 2) h [] a

/-- One observable callback invocation of a Store operation. -/
inductive SEvent where
  | invalid (paths : List (List String))
  | conflict (newSource oldSource : Option String)
deriving DecidableEq

/-- Store configuration after the constructor has merged `Store.defaults` with
the user options and derived `defaultValue`/`type` from each other.  The two
callbacks are modelled by presence flags plus the `SEvent` trace (their return
values are never used by the source); `lazyLoad` and `strictLoad` never
influence the operations modelled here. -/
structure StoreConfig where
  name : String
  type : Option JSType
  defaultValue : JSValue
  delay : ℕ
  secure : Bool
  autoFix : Bool
  hasOnInvalid : Bool
  hasOnConflict : Bool
  pathSeparator : String

/-- Mutable state of a Store bundled with the backing medium: the in-memory
`_value`, the conflict baseline `_oldSource`, the key-value medium, and
whether a debounced save is pending (the `_saveTimer`). -/
structure StoreState where
  value : JSValue
  oldSource : Option String
  storage : List (String × String)
  pendingSave : Bool

/-- Backing medium read (`getItem`): `none` models `null`. -/
def storageGet (st : List (String × String)) (k : String) : Option String :=
  lookupKey st k

/-- Backing medium write (`setItem`). -/
def storageSet (st : List (String × String)) (k v : String) : List (String × String) :=
  if (lookupKey st k).isSome then
    st.map (fun p => if p.1 = k then (p.1, v) else p)
  else st ++ [(k, v)]

/-- Embedding of `Store._invalid`: notify the configured callback, else with
auto-fix disabled throw the joined failing paths, else do nothing. -/
def invalidNotify (cfg : StoreConfig) (paths : List (List String)) :
    Except String (List SEvent) :=
  if cfg.hasOnInvalid then .ok [.invalid paths]
  else if !cfg.autoFix then
    .error ("Invalid value at paths: " ++
      (let msg := String.intercalate ", " (paths.map (String.intercalate cfg.pathSeparator))
       if msg = "" then "(root)" else msg))
  else .ok []

/-- Embedding of `Store._conflict`: notify the configured callback, else throw
`Sources conflicted`. -/
def conflictNotify (cfg : StoreConfig) (newSource oldSource : Option String) :
    Except String (List SEvent) :=
  if cfg.hasOnConflict then .ok [.conflict newSource oldSource] else .error "Sources conflicted"

/-- Embedding of `Store.checkConflict`: compare the medium against the
baseline; on divergence notify (or throw) and report a conflict. -/
def Store.checkConflict (cfg : StoreConfig) (s : StoreState) :
    Except String (Bool × List SEvent) :=
  let newSource := storageGet s.storage cfg.name
  if newSource ≠ s.oldSource then
    match conflictNotify cfg newSource s.oldSource with
    | .ok evs => .ok (true, evs)
    | .error e => .error e
  else .ok (false, [])

/-- Embedding of `Store.save`: with `secure` a detected conflict aborts the
save with a negative outcome and unchanged state; otherwise the serialized
in-memory value is written to the medium and becomes the new baseline. -/
def Store.save (cfg : StoreConfig) (s : StoreState) :
    Except String (Bool × StoreState × List SEvent) :=
  if cfg.secure then
    match Store.checkConflict cfg s with
    | .error e => .error e
    | .ok (true, evs) => .ok (false, s, evs)
    | .ok (false, evs) =>
      .ok (true,
        { s with oldSource := some (stringify s.value),
                 storage := storageSet s.storage cfg.name (stringify s.value) },
        evs)
  else
    .ok (true,
      { s with oldSource := some (stringify s.value),
               storage := storageSet s.storage cfg.name (stringify s.value) },
      [])

/-- Embedding of `Store._save`: with a nonzero delay (the default is 100) a
debounced save is (re)scheduled; with delay zero `save` runs synchronously. -/
def Store.scheduleSave (cfg : StoreConfig) (s : StoreState) :
    Except String (StoreState × List SEvent) :=
  if cfg.delay ≠ 0 then .ok ({ s with pendingSave := true }, [])
  else
    match Store.save cfg s with
    | .ok (_, s1, evs) => .ok (s1, evs)
    | .error e => .error e

/-- Embedding of `Store._getDefaultValue`: clone the configured default when
it is a truthy object, otherwise return it as-is. -/
def Store.getDefaultValue (cfg : StoreConfig) : Except String JSValue :=
  if objLike cfg.defaultValue then treeClone cfg.defaultValue else .ok cfg.defaultValue

/-- Repair loop of `Store.load` under a schema: each failing path still
declared in the schema is overwritten with the sub-Type default, an undeclared
path is deleted. -/
def repairPaths (ty : JSType) : List (List String) → JSValue → Except String JSValue
  | [], v => .ok v
  | p :: rest, v =>
    match (if testTypePath ty p then
             match getTypeByPath? ty p with
             | some sub => setByPath v p (typeDefault sub)
             | none => .error "Invalid path"
           else deleteByPath v p) with
    | .ok v1 => repairPaths ty rest v1
    | .error e => .error e

/-- Embedding of `Store.load`.  `sourceArg = none` is a call without argument
(read the medium); `some src` passes `src` explicitly.  The branch of the
source that repairs against a configured default with no schema
(`Store.ts` lines 171 to 185, including its `return false`) is unreachable:
the guard `validatingResult && !validatingResult.valid` already requires a
schema; the match structure below reflects exactly that. -/
def Store.load (cfg : StoreConfig) (s : StoreState) (sourceArg : Option (Option String)) :
    Except String (Bool × StoreState × List SEvent) :=
  let source : Option String :=
    match sourceArg with
    | none => storageGet s.storage cfg.name
    | some src => src
  match Store.getDefaultValue cfg with
  | .error e => .error e
  | .ok dflt =>
    match (match source with | none => Except.ok dflt | some str => parse str) with
    | .error e => .error e
    | .ok value =>
      match cfg.type with
      | none =>
        let s1 := { s with oldSource := source, value := value }
        if source = none then
          match Store.scheduleSave cfg s1 with
          | .error e => .error e
          | .ok (s2, evs) => .ok (true, s2, evs)
        else .ok (true, s1, [])
      | some ty =>
        match validate ty value with
        | .valid =>
          let s1 := { s with oldSource := source, value := value }
          if source = none then
            match Store.scheduleSave cfg s1 with
            | .error e => .error e
            | .ok (s2, evs) => .ok (true, s2, evs)
          else .ok (true, s1, [])
        | .invalid ps =>
          match invalidNotify cfg ps with
          | .error e => .error e
          | .ok evs =>
            if cfg.autoFix then
              match (if (ps.headD []).length ≠ 0 then repairPaths ty ps value
                     else Except.ok (typeDefault ty)) with
              | .error e => .error e
              | .ok value1 =>
                let s1 := { s with oldSource := source, value := value1 }
                match Store.scheduleSave cfg s1 with
                | .error e => .error e
                | .ok (s2, evs2) => .ok (true, s2, evs ++ evs2)
            else .ok (false, s, evs)

/-- Embedding of `Store.get`: the whole value, or the value at a path. -/
def Store.get (s : StoreState) (selector : Option (List String)) : Except String JSValue :=
  match selector with
  | none => .ok s.value
  | some p => getByPath s.value p

/-- Successful tail of `Store.set`: write the candidate at the path, schedule
a debounced save, return a positive outcome. -/
def Store.commit (cfg : StoreConfig) (s : StoreState) (path : List String) (v : JSValue) :
    Except String (Bool × StoreState × List SEvent) :=
  match setByPath s.value path v with
  | .error e => .error e
  | .ok v1 =>
    match Store.scheduleSave cfg { s with value := v1 } with
    | .error e => .error e
    | .ok (s1, evs) => .ok (true, s1, evs)

/-- Embedding of `Store.set` on an already-parsed path and already-resolved
candidate value (when the patch argument is callable the source first applies
it to the current value at the path; the claims quantify over the resulting
candidate).  With a schema, an undeclared path or a rejected candidate
notifies the absolute failing paths and returns a negative outcome without
touching the value. -/
def Store.set (cfg : StoreConfig) (s : StoreState) (path : List String) (v : JSValue) :
    Except String (Bool × StoreState × List SEvent) :=
  match cfg.type with
  | some ty =>
    if testTypePath ty path then
      match getTypeByPath? ty path with
      | some sub =>
        (match validate sub v with
         | .valid => Store.commit cfg s path v
         | .invalid ps =>
           match invalidNotify cfg (ps.map (fun q => path ++ q)) with
           | .ok evs => .ok (false, s, evs)
           | .error e => .error e)
      | none => .error "Invalid path"
    else
      match invalidNotify cfg [path] with
      | .ok evs => .ok (false, s, evs)
      | .error e => .error e
  | none => Store.commit cfg s path v

/-! Helper lemmas shared by the claim theorems. -/

theorem lookupKey_eq_none_iff {α : Type} (fs : List (String × α)) (k : String) :
    lookupKey fs k = none ↔ k ∉ fs.map Prod.fst := by
  induction fs with
  | nil => simp [lookupKey]
  | cons kv rest ih =>
    obtain ⟨k1, v1⟩ := kv
    simp only [lookupKey, List.map_cons, List.mem_cons]
    by_cases h : k1 = k
    · subst h
      simp
    · rw [if_neg h, ih]
      have hne : ¬k = k1 := fun hk => h hk.symm
      simp [hne]

theorem lookupKey_mem {α : Type} {fs : List (String × α)} {k : String} {v : α}
    (h : lookupKey fs k = some v) : (k, v) ∈ fs := by
  induction fs with
  | nil => simp [lookupKey] at h
  | cons kv rest ih =>
    obtain ⟨k1, v1⟩ := kv
    by_cases hk : k1 = k
    · subst hk
      simp [lookupKey] at h
      subst h
      exact List.mem_cons_self _ _
    · simp [lookupKey, hk] at h
      exact List.mem_cons_of_mem _ (ih h)

theorem validate_invalid_ne_nil (t : JSType) (v : JSValue) (ps : List (List String))
    (h : validate t v = .invalid ps) : ps ≠ [] := by
  cases t
  case dictionary types =>
    cases types
    case none =>
      simp only [validate] at h
      split at h
      · exact absurd h (by simp)
      · injection h with h1
        subst h1
        simp
    case some ts =>
      simp only [validate] at h
      split at h
      · split at h
        · exact absurd h (by simp)
        · injection h with h1
          subst h1
          simp_all [List.isEmpty_iff]
      · injection h with h1
        subst h1
        simp
  all_goals
    (simp only [validate, createVR] at h
     first
       | exact VResult.noConfusion h
       | (split at h
          · exact VResult.noConfusion h
          · (injection h with h1
             intro hps
             rw [hps] at h1
             exact List.noConfusion h1)))

theorem isValid_iff_failPaths (t : JSType) (v : JSValue) :
    (validate t v).isValid = true ↔ (validate t v).failPaths = [] := by
  cases hval : validate t v with
  | valid => simp [VResult.isValid, VResult.failPaths]
  | invalid ps =>
    simp [VResult.isValid, VResult.failPaths, validate_invalid_ne_nil t v ps hval]

theorem mem_unknownKeyPaths {ts : List (String × JSType)} {v : JSValue} {p : List String} :
    p ∈ unknownKeyPaths ts v ↔ ∃ k, k ∈ jsKeys v ∧ k ∉ ts.map Prod.fst ∧ p = [k] := by
  simp only [unknownKeyPaths, List.mem_map, List.mem_filter, Option.isNone_iff_eq_none,
    lookupKey_eq_none_iff]
  constructor
  · rintro ⟨k, ⟨hk, hno⟩, rfl⟩
    exact ⟨k, hk, by simpa using hno, rfl⟩
  · rintro ⟨k, hk, hno, rfl⟩
    exact ⟨k, ⟨hk, by simpa using hno⟩, rfl⟩

theorem mem_validateFields {ts : List (String × JSType)} {v : JSValue} {p : List String} :
    p ∈ validateFields ts v ↔
      ∃ k t, (k, t) ∈ ts ∧ ∃ q ∈ (validate t (jsGet v k)).failPaths, p = k :: q := by
  induction ts with
  | nil => simp [validateFields]
  | cons kt rest ih =>
    obtain ⟨k, t⟩ := kt
    cases hval : validate t (jsGet v k) with
    | valid =>
      simp only [validateFields, hval, List.nil_append]
      rw [ih]
      constructor
      · rintro ⟨k1, t1, hmem, hq⟩
        exact ⟨k1, t1, List.mem_cons_of_mem _ hmem, hq⟩
      · rintro ⟨k1, t1, hmem, q, hq, hp⟩
        rcases List.mem_cons.mp hmem with heq | hmem1
        · injection heq with hk ht
          subst hk; subst ht
          rw [hval] at hq
          simp [VResult.failPaths] at hq
        · exact ⟨k1, t1, hmem1, q, hq, hp⟩
    | invalid ps =>
      simp only [validateFields, hval, List.mem_append, List.mem_map]
      rw [ih]
      constructor
      · rintro (⟨q, hq, rfl⟩ | ⟨k1, t1, hmem, hq⟩)
        · exact ⟨k, t, List.mem_cons_self _ _, q, by simp [hval, VResult.failPaths, hq], rfl⟩
        · exact ⟨k1, t1, List.mem_cons_of_mem _ hmem, hq⟩
      · rintro ⟨k1, t1, hmem, q, hq, hp⟩
        rcases List.mem_cons.mp hmem with heq | hmem1
        · injection heq with hk ht
          subst hk; subst ht
          rw [hval] at hq
          simp only [VResult.failPaths] at hq
          exact Or.inl ⟨q, hq, hp.symm⟩
        · exact Or.inr ⟨k1, t1, hmem1, q, hq, hp⟩

theorem validateFields_eq_nil_iff {ts : List (String × JSType)} {v : JSValue} :
    validateFields ts v = [] ↔
      ∀ k t, (k, t) ∈ ts → (validate t (jsGet v k)).isValid = true := by
  rw [List.eq_nil_iff_forall_not_mem]
  constructor
  · intro h k t hmem
    rw [isValid_iff_failPaths, List.eq_nil_iff_forall_not_mem]
    intro q hq
    exact h (k :: q) (mem_validateFields.mpr ⟨k, t, hmem, q, hq, rfl⟩)
  · intro h p hp
    obtain ⟨k, t, hmem, q, hq, rfl⟩ := mem_validateFields.mp hp
    rw [(isValid_iff_failPaths _ _).mp (h k t hmem)] at hq
    simp at hq

theorem validate_dictionary_some_eq (ts : List (String × JSType)) (v : JSValue) :
    validate (.dictionary (some ts)) v =
      if objLike v then
        (if (unknownKeyPaths ts v ++ validateFields ts v).isEmpty then .valid
         else .invalid (unknownKeyPaths ts v ++ validateFields ts v))
      else .invalid [[]] := by
  simp only [validate]

theorem dictionary_failPaths (ts : List (String × JSType)) (v : JSValue)
    (ho : objLike v = true) :
    (validate (.dictionary (some ts)) v).failPaths =
      unknownKeyPaths ts v ++ validateFields ts v := by
  by_cases hE : (unknownKeyPaths ts v ++ validateFields ts v).isEmpty = true
  · rw [validate_dictionary_some_eq, if_pos ho, if_pos hE]
    rw [List.isEmpty_iff] at hE
    simp [VResult.failPaths, hE]
  · rw [validate_dictionary_some_eq, if_pos ho, if_neg hE]
    rfl

theorem dictionary_valid_iff (ts : List (String × JSType)) (v : JSValue) :
    (validate (.dictionary (some ts)) v).isValid = true ↔
      objLike v = true ∧ unknownKeyPaths ts v = [] ∧ validateFields ts v = [] := by
  by_cases ho : objLike v
  · rw [isValid_iff_failPaths, dictionary_failPaths ts v ho]
    simp [ho, List.append_eq_nil]
  · rw [validate_dictionary_some_eq]
    simp [ho, VResult.isValid]

theorem testTypePath_eq_isSome (p : List String) : ∀ ty : JSType,
    testTypePath ty p = (getTypeByPath? ty p).isSome := by
  induction p with
  | nil => intro ty; simp [testTypePath, getTypeByPath?]
  | cons k ks ih =>
    intro ty
    cases ty
    case dictionary types =>
      cases types with
      | none => simp [testTypePath, getTypeByPath?]
      | some ts =>
        simp only [testTypePath, getTypeByPath?]
        cases hl : lookupKey ts k with
        | none => simp
        | some t => simp [ih t]
    all_goals simp [testTypePath, getTypeByPath?]

theorem getTypeByPath?_append (q r : List String) : ∀ ty t : JSType,
    getTypeByPath? ty q = some t → getTypeByPath? ty (q ++ r) = getTypeByPath? t r := by
  induction q with
  | nil =>
    intro ty t h
    simp only [getTypeByPath?] at h
    injection h with h1
    subst h1
    simp
  | cons k ks ih =>
    intro ty t h
    cases ty
    case dictionary types =>
      cases types with
      | none => simp [getTypeByPath?] at h
      | some ts =>
        simp only [getTypeByPath?] at h ⊢
        cases hl : lookupKey ts k with
        | none =>
          rw [hl] at h
          exact Option.noConfusion h
        | some t1 =>
          rw [hl] at h
          exact ih t1 t h
    all_goals simp [getTypeByPath?] at h

theorem testTypePath_nonDict_false {t : JSType} (h : isDict t = false) {r : List String}
    (hr : r ≠ []) : testTypePath t r = false := by
  cases r with
  | nil => exact absurd rfl hr
  | cons k ks =>
    cases t
    case dictionary types => simp [isDict] at h
    all_goals rfl

theorem setByPath_ok (p : List String) : ∀ (ty : JSType) (v x : JSValue),
    p ≠ [] → (validate ty v).isValid = true → testTypePath ty p = true →
    ∃ v1, setByPath v p x = .ok v1 := by
  induction p with
  | nil => intro ty v x hp _ _; exact absurd rfl hp
  | cons k ks ih =>
    intro ty v x _ hv ht
    cases ty
    case dictionary types =>
      cases types with
      | none => simp [testTypePath] at ht
      | some ts =>
        simp only [testTypePath] at ht
        cases hl : lookupKey ts k with
        | none => rw [hl] at ht; exact absurd ht (by simp)
        | some t =>
          rw [hl] at ht
          have hobj : objLike v = true := ((dictionary_valid_iff ts v).mp hv).1
          have hfield : (validate t (jsGet v k)).isValid = true :=
            validateFields_eq_nil_iff.mp ((dictionary_valid_iff ts v).mp hv).2.2 k t
              (lookupKey_mem hl)
          cases ks with
          | nil => exact ⟨setKey v k x, by simp [setByPath, hobj]⟩
          | cons k2 ks2 =>
            obtain ⟨inner, hinner⟩ := ih t (jsGet v k) x (by simp) hfield ht
            exact ⟨setKey v k inner, by simp [setByPath, hobj, hinner]⟩
    all_goals simp [testTypePath] at ht

theorem set_undeclared_eq (cfg : StoreConfig) (s : StoreState) (ty : JSType)
    (p : List String) (v : JSValue) (hty : cfg.type = some ty)
    (ht : testTypePath ty p = false) (hok : cfg.hasOnInvalid = true ∨ cfg.autoFix = true) :
    Store.set cfg s p v =
      .ok (false, s, if cfg.hasOnInvalid then [.invalid [p]] else []) := by
  by_cases hi : cfg.hasOnInvalid
  · simp [Store.set, hty, ht, invalidNotify, hi]
  · have ha : cfg.autoFix = true := by
      rcases hok with h | h
      · exact absurd h hi
      · exact h
    simp [Store.set, hty, ht, invalidNotify, hi, ha]

/-- Claim C4: the claim states that `List.validate(v)` is valid iff `v` is an
array whose every element passes the element type; the code instead treats the
element result object as a truthy boolean, so an array whose single element
fails the element validator is nevertheless reported valid.  This theorem
evaluates the code at that failing input: the element `"x"` alone is rejected
by the `Number` element type, yet the list `["x"]` validates. -/
theorem C4_list_element_failure_ignored :
    validate (.list [] (.number 0 none none false)) (.arr [.str "x"]) = .valid ∧
    validate (.number 0 none none false) (.str "x") = .invalid [[]] := by
  constructor
  · simp [validate, validateListValue, validateElems, createVR]
  · simp [validate, numberCheck, createVR]

/-- Claim C5: the claim states that `Nullable.validate(v)` accepts exactly
`null` (per the null flag) and `undefined` (per the undefined flag).  The code
compares `value === this.undefinedined` where `this.undefinedined` is the boolean
flag, so with the default flags (both true) `undefined` is rejected and the
boolean `true` is accepted.  The construction-time part of the claim (both
flags disabled throws) does hold.  This theorem evaluates the code at the
failing inputs. -/
theorem C5_nullable_validate_misbehaves :
    mkNullable none none none = .ok (.nullable .null true true) ∧
    validate (.nullable .null true true) .undefined = .invalid [[]] ∧
    validate (.nullable .null true true) (.bool true) = .valid ∧
    mkNullable none (some false) (some false) = .error "Invalid options" := by
  refine ⟨rfl, ?_, ?_, rfl⟩
  · simp [validate, nullableCheck, createVR]
  · simp [validate, nullableCheck, createVR]

/-- Claim C6: the claim (and the spec) states that with no schema, no
configured default and no stored source, `load()` fails.  In the code the
`return false` for that situation sits inside the branch guarded by
`validatingResult && !validatingResult.valid`, which requires a schema, so it
is unreachable: the load returns `true`, installs `null` as the value and
schedules a save.  This theorem evaluates the embedded `load` at exactly that
input. -/
theorem C6_load_no_schema_no_default_succeeds :
    Store.load
      { name := "store", type := none, defaultValue := .null, delay := 100,
        secure := true, autoFix := true, hasOnInvalid := false,
        hasOnConflict := false, pathSeparator := "." }
      { value := .undefined, oldSource := none, storage := [], pendingSave := false }
      none =
    .ok (true,
      { value := .null, oldSource := none, storage := [], pendingSave := true },
      []) := rfl

/-- Claim C7: the claim states that every successfully constructed Type
validates its own default value.  `Nullable` constructed with `null: false`
and no explicit default silently sets its default to `undefined` without
validating it, and (because of the `value === this.undefinedined` slip) its
`validate` rejects `undefined`: the invariant fails on this successfully
constructed Type. -/
theorem C7_nullable_default_invalid :
    mkNullable none (some false) none = .ok (.nullable .undefined false true) ∧
    (validate (.nullable .undefined false true)
        (typeDefault (.nullable .undefined false true))).isValid = false := by
  refine ⟨rfl, ?_⟩
  simp [validate, typeDefault, nullableCheck, createVR, VResult.isValid]

/-- Claim C9: the claim states that `clone` deep-copies the plain
object/array graph, silently omits function-valued properties, and throws
`CircularReference` exactly when an object is encountered twice in one
traversal.  The code instead: (i) crashes with a TypeError on a `null`-valued
property of a nested object (the recursion reaches `Object.entries(null)`),
and (ii) copies arrays shallowly with `slice()`, so array elements are
neither cloned nor visited: a function inside an array survives into the
output and objects reachable only through arrays are never entered into the
visited set.  This theorem evaluates the embedded `clone` at both inputs:
the heap `0 ↦ {a: ref 1}, 1 ↦ {b: null}` (the value `{a: {b: null}}`) throws
a TypeError, and the heap `0 ↦ {a: ref 1}, 1 ↦ [fn]` (the value `{a: [fn]}`)
succeeds while keeping the function in the copied array. -/
theorem C9_clone_typeerror_and_shallow_arrays :
    clone [.hobj [("a", .href 1)], .hobj [("b", .hnull)]] 0 = .error "TypeError" ∧
    clone [.hobj [("a", .href 1)], .harr [.hfn]] 0 =
      .ok ([.hobj [("a", .href 1)], .harr [.hfn], .harr [.hfn],
            .hobj [("a", .href 2)]], 3, [1]) := ⟨rfl, rfl⟩

/-- Claim C1: for a Dictionary with a declared field mapping, a candidate that
is not a truthy object is invalid with the single empty root path; otherwise
the reported failing paths are exactly the union of (a) one single-key path per
key of the candidate absent from the mapping and (b) each declared field's
failing sub-paths (validating the candidate's value at that field) prefixed
with the field key; the result is valid iff that set is empty; and with no
field mapping every truthy object is accepted. -/
theorem C1_dictionary_validate (ts : List (String × JSType)) (v : JSValue) :
    (objLike v = false → validate (.dictionary (some ts)) v = .invalid [[]]) ∧
    (objLike v = true →
      (∀ p : List String,
        p ∈ (validate (.dictionary (some ts)) v).failPaths ↔
          ((∃ k, k ∈ jsKeys v ∧ k ∉ ts.map Prod.fst ∧ p = [k]) ∨
           (∃ k t, (k, t) ∈ ts ∧ ∃ q ∈ (validate t (jsGet v k)).failPaths, p = k :: q))) ∧
      ((validate (.dictionary (some ts)) v).isValid = true ↔
        (validate (.dictionary (some ts)) v).failPaths = [])) ∧
    (objLike v = true → validate (.dictionary none) v = .valid) := by
  refine ⟨?_, ?_, ?_⟩
  · intro ho
    rw [validate_dictionary_some_eq, if_neg (by simp [ho])]
  · intro ho
    refine ⟨?_, isValid_iff_failPaths _ _⟩
    intro p
    rw [dictionary_failPaths ts v ho, List.mem_append, mem_unknownKeyPaths,
      mem_validateFields]
  · intro ho
    simp [validate, ho]

/-- Witness for C1 at the mapping `{a : Boolean}` and the candidate
`{a: 3, zz: null}`: the unknown key `zz` is a reported single-key path, and a
non-object candidate is rejected with the root path. -/
theorem C1_dictionary_validate_witness :
    ["zz"] ∈ (validate (.dictionary (some [("a", .boolean false)]))
      (.obj [("a", .num 3), ("zz", .null)])).failPaths ∧
    validate (.dictionary (some [("a", .boolean false)])) (.str "no") = .invalid [[]] := by
  constructor
  · exact (((C1_dictionary_validate [("a", .boolean false)]
        (.obj [("a", .num 3), ("zz", .null)])).2.1 rfl).1 ["zz"]).mpr
      (Or.inl ⟨"zz", by simp [jsKeys], by simp, rfl⟩)
  · exact (C1_dictionary_validate [("a", .boolean false)] (.str "no")).1 rfl

/-- Claim C2: with conflict checking enabled and the medium diverging from the
baseline, `save` notifies the conflict callback with (current medium string,
baseline), performs no write, leaves the state unchanged and returns false;
without a conflict callback the detected conflict throws; with matching
sources or checking disabled, `save` writes the serialized value under the
store's name, updates the baseline to that string and returns true. -/
theorem C2_save_conflict_protocol (cfg : StoreConfig) (s : StoreState) :
    (cfg.secure = true → storageGet s.storage cfg.name ≠ s.oldSource →
      (cfg.hasOnConflict = true →
        Store.save cfg s =
          .ok (false, s, [.conflict (storageGet s.storage cfg.name) s.oldSource])) ∧
      (cfg.hasOnConflict = false → Store.save cfg s = .error "Sources conflicted")) ∧
    ((cfg.secure = false ∨ storageGet s.storage cfg.name = s.oldSource) →
      Store.save cfg s =
        .ok (true,
          { s with oldSource := some (stringify s.value),
                   storage := storageSet s.storage cfg.name (stringify s.value) },
          [])) := by
  constructor
  · intro hs hneq
    constructor
    · intro hc
      simp [Store.save, hs, Store.checkConflict, hneq, conflictNotify, hc]
    · intro hc
      simp [Store.save, hs, Store.checkConflict, hneq, conflictNotify, hc]
  · rintro (hs | heq)
    · simp [Store.save, hs]
    · by_cases hs : cfg.secure
      · simp [Store.save, hs, Store.checkConflict, heq]
      · simp [Store.save, hs]

/-- Witness for C2: a concrete diverged medium triggers the conflict
notification with the current and baseline strings, without a write. -/
theorem C2_save_conflict_protocol_witness :
    Store.save
      { name := "k", type := none, defaultValue := .null, delay := 0,
        secure := true, autoFix := true, hasOnInvalid := false,
        hasOnConflict := true, pathSeparator := "." }
      { value := .bool true, oldSource := some "old", storage := [("k", "ext")],
        pendingSave := false } =
    .ok (false,
      { value := .bool true, oldSource := some "old", storage := [("k", "ext")],
        pendingSave := false },
      [.conflict (some "ext") (some "old")]) := by
  exact ((C2_save_conflict_protocol _ _).1 rfl (by decide)).1 rfl

/-- Claim C10: with a schema, `set` descends only through Dictionary field
mappings: whenever some proper prefix of the target path already reaches a
non-Dictionary node (so at least one key remains to be consumed), the whole
path is treated as undeclared, `set` returns false and the store's value is
untouched; in particular elements inside a List are unreachable. -/
theorem C10_set_nonDictionary_prefix_undeclared (cfg : StoreConfig) (s : StoreState)
    (ty t : JSType) (p : List String) (v : JSValue) (i : ℕ)
    (hty : cfg.type = some ty)
    (hi : i < p.length)
    (hstep : getTypeByPath? ty (p.take i) = some t)
    (hnd : isDict t = false)
    (hok : cfg.hasOnInvalid = true ∨ cfg.autoFix = true) :
    testTypePath ty p = false ∧
    Store.set cfg s p v =
      .ok (false, s, if cfg.hasOnInvalid then [.invalid [p]] else []) := by
  have hsplit : testTypePath ty p = testTypePath t (p.drop i) := by
    conv_lhs => rw [← List.take_append_drop i p]
    rw [testTypePath_eq_isSome (p.take i ++ p.drop i) ty,
      testTypePath_eq_isSome (p.drop i) t,
      getTypeByPath?_append _ _ ty t hstep]
  have hdrop : p.drop i ≠ [] := by
    intro hnil
    rw [List.drop_eq_nil_iff] at hnil
    omega
  have ht : testTypePath ty p = false := by
    rw [hsplit]
    exact testTypePath_nonDict_false hnd hdrop
  exact ⟨ht, set_undeclared_eq cfg s ty p v hty ht hok⟩

/-- Witness for C10: with schema `{xs : List Number}` the path `xs.0` (an
element inside the List) is undeclared for `set`, which returns false with the
target path notified and the value unchanged. -/
theorem C10_set_nonDictionary_prefix_undeclared_witness :
    testTypePath (.dictionary (some [("xs", .list [] (.number 0 none none false))]))
      ["xs", "0"] = false ∧
    Store.set
      { name := "k",
        type := some (.dictionary (some [("xs", .list [] (.number 0 none none false))])),
        defaultValue := .null, delay := 100, secure := true, autoFix := true,
        hasOnInvalid := true, hasOnConflict := false, pathSeparator := "." }
      { value := .obj [("xs", .arr [.num 1])], oldSource := none, storage := [],
        pendingSave := false }
      ["xs", "0"] (.num 2) =
    .ok (false,
      { value := .obj [("xs", .arr [.num 1])], oldSource := none, storage := [],
        pendingSave := false },
      [.invalid [["xs", "0"]]]) := by
  have h := C10_set_nonDictionary_prefix_undeclared
    { name := "k",
      type := some (.dictionary (some [("xs", .list [] (.number 0 none none false))])),
      defaultValue := .null, delay := 100, secure := true, autoFix := true,
      hasOnInvalid := true, hasOnConflict := false, pathSeparator := "." }
    { value := .obj [("xs", .arr [.num 1])], oldSource := none, storage := [],
      pendingSave := false }
    (.dictionary (some [("xs", .list [] (.number 0 none none false))]))
    (.list [] (.number 0 none none false))
    ["xs", "0"] (.num 2) 1 rfl (by decide) rfl rfl (Or.inl rfl)
  exact ⟨h.1, h.2⟩

/-- Claim C3: with a schema and a (string-selector, hence non-empty) target
path, over a store whose current value validates and with an invalid-path
notifier configured and a nonzero debounce delay: an undeclared path notifies
the target path itself and returns false without mutating the value; a
declared path whose sub-Type rejects the candidate notifies the failing
sub-paths translated to absolute paths (target path concatenated with each
relative path) and returns false without mutating the value; an accepted
candidate is written at the path, a debounced save is scheduled and true is
returned. -/
theorem C3_set_validation (cfg : StoreConfig) (s : StoreState) (ty : JSType)
    (p : List String) (v : JSValue)
    (hty : cfg.type = some ty)
    (hcur : (validate ty s.value).isValid = true)
    (hp : p ≠ [])
    (hinv : cfg.hasOnInvalid = true)
    (hdelay : cfg.delay ≠ 0) :
    (testTypePath ty p = false →
      Store.set cfg s p v = .ok (false, s, [.invalid [p]])) ∧
    (∀ sub, getTypeByPath? ty p = some sub →
      (∀ ps, validate sub v = .invalid ps →
        Store.set cfg s p v = .ok (false, s, [.invalid (ps.map (fun q => p ++ q))])) ∧
      (validate sub v = .valid →
        ∃ v1, setByPath s.value p v = .ok v1 ∧
          Store.set cfg s p v =
            .ok (true, { s with value := v1, pendingSave := true }, []))) := by
  constructor
  · intro ht
    have h := set_undeclared_eq cfg s ty p v hty ht (Or.inl hinv)
    simpa [hinv] using h
  · intro sub hsub
    have htt : testTypePath ty p = true := by
      rw [testTypePath_eq_isSome, hsub]
      rfl
    constructor
    · intro ps hps
      simp [Store.set, hty, htt, hsub, hps, invalidNotify, hinv]
    · intro hvalid
      obtain ⟨v1, hv1⟩ := setByPath_ok p ty s.value v hp hcur htt
      refine ⟨v1, hv1, ?_⟩
      simp [Store.set, hty, htt, hsub, hvalid, Store.commit, hv1, Store.scheduleSave, hdelay]

/-- Witness for C3 at the test-page schema
`{version: Number(default 1, min 0, integer), str: String, n: Number}` and a
valid current value: `set("version", -1)` returns false, leaves the value
untouched and notifies `[["version"]]`, exactly as the spec scenario states. -/
theorem C3_set_validation_witness :
    Store.set
      { name := "hstore-test",
        type := some (.dictionary (some
          [("version", .number 1 (some 0) none true),
           ("str", .string "Hello, world!" 0 none none),
           ("n", .number 0 none none false)])),
        defaultValue := .null, delay := 100, secure := true, autoFix := true,
        hasOnInvalid := true, hasOnConflict := false, pathSeparator := "." }
      { value := .obj [("version", .num 1), ("str", .str "Hello, world!"), ("n", .num 0)],
        oldSource := some "src", storage := [], pendingSave := false }
      ["version"] (.num (-1)) =
    .ok (false,
      { value := .obj [("version", .num 1), ("str", .str "Hello, world!"), ("n", .num 0)],
        oldSource := some "src", storage := [], pendingSave := false },
      [.invalid [["version"]]]) := by
  have hcheck : numberCheck (some 0) none true (.num (-1)) = false := by decide
  have hps : validate (.number 1 (some 0) none true) (.num (-1)) = .invalid [[]] := by
    simp [validate, hcheck, createVR]
  have hcur : (validate
      (.dictionary (some
        [("version", .number 1 (some 0) none true),
         ("str", .string "Hello, world!" 0 none none),
         ("n", .number 0 none none false)]))
      (.obj [("version", .num 1), ("str", .str "Hello, world!"), ("n", .num 0)])).isValid =
      true := by
    have h1 : validate (.number 1 (some 0) none true) (.num 1) = .valid := by
      have : numberCheck (some 0) none true (.num 1) = true := by decide
      simp [validate, this, createVR]
    have h2 : validate (.string "Hello, world!" 0 none none)
        (.str "Hello, world!") = .valid := by
      have : stringCheck 0 none none (.str "Hello, world!") = true := by decide
      simp [validate, this, createVR]
    have h3 : validate (.number 0 none none false) (.num 0) = .valid := by
      have : numberCheck none none false (.num 0) = true := by decide
      simp [validate, this, createVR]
    have e1 : jsGet (.obj [("version", .num 1), ("str", .str "Hello, world!"),
        ("n", .num 0)]) "version" = .num 1 := rfl
    have e2 : jsGet (.obj [("version", .num 1), ("str", .str "Hello, world!"),
        ("n", .num 0)]) "str" = .str "Hello, world!" := rfl
    have e3 : jsGet (.obj [("version", .num 1), ("str", .str "Hello, world!"),
        ("n", .num 0)]) "n" = .num 0 := rfl
    have hu : unknownKeyPaths
        [("version", .number 1 (some 0) none true),
         ("str", .string "Hello, world!" 0 none none),
         ("n", .number 0 none none false)]
        (.obj [("version", .num 1), ("str", .str "Hello, world!"), ("n", .num 0)]) = [] := by
      decide
    have hf : validateFields
        [("version", .number 1 (some 0) none true),
         ("str", .string "Hello, world!" 0 none none),
         ("n", .number 0 none none false)]
        (.obj [("version", .num 1), ("str", .str "Hello, world!"), ("n", .num 0)]) = [] := by
      simp only [validateFields, e1, e2, e3, h1, h2, h3, List.nil_append]
    exact (dictionary_valid_iff _ _).mpr ⟨rfl, hu, hf⟩
  have h := (C3_set_validation
    { name := "hstore-test",
      type := some (.dictionary (some
        [("version", .number 1 (some 0) none true),
         ("str", .string "Hello, world!" 0 none none),
         ("n", .number 0 none none false)])),
      defaultValue := .null, delay := 100, secure := true, autoFix := true,
      hasOnInvalid := true, hasOnConflict := false, pathSeparator := "." }
    { value := .obj [("version", .num 1), ("str", .str "Hello, world!"), ("n", .num 0)],
      oldSource := some "src", storage := [], pendingSave := false }
    (.dictionary (some
      [("version", .number 1 (some 0) none true),
       ("str", .string "Hello, world!" 0 none none),
       ("n", .number 0 none none false)]))
    ["version"] (.num (-1)) rfl hcur (by simp) rfl (by simp)).2
    (.number 1 (some 0) none true) rfl
  simpa using h.1 [[]] hps

/-- Claim C8 counterexample: the claim quantifies over every source string
that parses to a schema-accepted value, but a non-canonical spelling of the
same value (here a leading space) satisfies the hypotheses while
re-serialization yields the canonical string, not the original: with a
Boolean schema, `" true"` parses to `true` (accepted), `load` succeeds, yet
`JSON.stringify` of the loaded value is `"true" ≠ " true"`. -/
theorem C8_roundtrip_counterexample :
    parse " true" = .ok (.bool true) ∧
    (validate (.boolean false) (.bool true)).isValid = true ∧
    Store.load
      { name := "k", type := some (.boolean false), defaultValue := .bool false,
        delay := 100, secure := true, autoFix := true, hasOnInvalid := true,
        hasOnConflict := true, pathSeparator := "." }
      { value := .undefined, oldSource := none, storage := [], pendingSave := false }
      (some (some " true")) =
      .ok (true,
        { value := .bool true, oldSource := some " true", storage := [],
          pendingSave := false },
        []) ∧
    Store.get
      { value := .bool true, oldSource := some " true", storage := [],
        pendingSave := false } none = .ok (.bool true) ∧
    stringify (.bool true) = "true" ∧
    "true" ≠ " true" := by
  have h1 : parse " true" = .ok (.bool true) := rfl
  have h2 : validate (.boolean false) (.bool true) = .valid := by
    simp [validate, booleanCheck, createVR]
  refine ⟨h1, by simp [h2, VResult.isValid], ?_, rfl, rfl, by decide⟩
  simp [Store.load, Store.getDefaultValue, objLike, h1, h2, storageGet, lookupKey]

/-- Claim C8 as amended: for every source string that parses to a value
accepted by the store's schema AND that is the canonical serialization of
that value (the string equals `JSON.stringify` of its parse), `load`
succeeds, installs the parsed value and the source as the new baseline, and
re-serializing the whole value returned by `get()` yields the original
string. -/
theorem C8_roundtrip_amended (cfg : StoreConfig) (s : StoreState) (S : String)
    (v : JSValue) (ty : JSType) (d : JSValue)
    (hty : cfg.type = some ty)
    (hd : Store.getDefaultValue cfg = .ok d)
    (hparse : parse S = .ok v)
    (hvalid : validate ty v = .valid)
    (hcanon : stringify v = S) :
    Store.load cfg s (some (some S)) =
      .ok (true, { s with value := v, oldSource := some S }, []) ∧
    ∃ w, Store.get { s with value := v, oldSource := some S } none = .ok w ∧
      stringify w = S := by
  constructor
  · simp [Store.load, hd, hparse, hty, hvalid]
  · exact ⟨v, rfl, hcanon⟩

/-- Witness for the amended C8 at the canonical source `"true"` with a
Boolean schema. -/
theorem C8_roundtrip_amended_witness :
    Store.load
      { name := "k", type := some (.boolean false), defaultValue := .bool false,
        delay := 100, secure := true, autoFix := true, hasOnInvalid := true,
        hasOnConflict := true, pathSeparator := "." }
      { value := .undefined, oldSource := none, storage := [], pendingSave := false }
      (some (some "true")) =
      .ok (true,
        { value := .bool true, oldSource := some "true", storage := [],
          pendingSave := false },
        []) ∧
    ∃ w, Store.get
        { value := .bool true, oldSource := some "true", storage := [],
          pendingSave := false } none = .ok w ∧
      stringify w = "true" := by
  exact C8_roundtrip_amended
    { name := "k", type := some (.boolean false), defaultValue := .bool false,
      delay := 100, secure := true, autoFix := true, hasOnInvalid := true,
      hasOnConflict := true, pathSeparator := "." }
    { value := .undefined, oldSource := none, storage := [], pendingSave := false }
    "true" (.bool true) (.boolean false) (.bool false)
    rfl rfl rfl (by simp [validate, booleanCheck, createVR]) rfl

end HStorage
